import Mathlib

/-!
Shallow embedding of the concurrent server-filter pipeline
(cpp_app: main.cpp, data_io.cpp, opencl_processor.cpp, zmq_comm.cpp,
kernels.cl, utils.h).

Float values that travel over the wire or sit opaquely in the store are
represented by their 32-bit patterns (`Nat < 2^32`); the reliability
kernel, whose single-precision `sin`/`cos` are device dependent
(`-cl-fast-relaxed-math`), is modelled over `ℚ` with the two
trigonometric primitives as parameters, keeping the loop structure,
seed, iteration count, scaling and threshold of `kernels.cl` exact.
The concurrent interleaving is sequentialized: the accelerator's
read-back loop and the receiver's frame loop are folds over the lists
of updates each thread applies under the shared mutex.
-/

namespace PipelineModel

/-! ### Protocol constants (utils.h, namespace Constants) -/

def MSG_SIZE : Nat := 12

def MSG_RESULT_SIZE : Nat := 8

def ID_SIZE : Nat := 4

def FLOAT_SIZE : Nat := 4

def UPTIME_SIZE : Nat := 4

def STOP_SIGNAL : Nat := 0xFF

/-! ### Byte-level encoding (little-endian, the native order of the
reference platform; `memcpy` of a 4-byte int / float bit pattern) -/

def natToBytes4 (n : Nat) : List Nat :=
  [n % 256, n / 256 % 256, n / 65536 % 256, n / 16777216 % 256]

def bytesToNat32 (bs : List Nat) : Nat :=
  match bs with
  | [b0, b1, b2, b3] => b0 + 256 * b1 + 65536 * b2 + 16777216 * b3
  | _ => 0

def int32ToBytes (x : Int) : List Nat :=
  natToBytes4 (x % 4294967296).toNat

def natToInt32 (n : Nat) : Int :=
  if n < 2147483648 then (n : Int) else (n : Int) - 4294967296

/-! ### Data model (types.h)

`F` stands for the C++ `float`: instantiated with `Nat`
(the 32-bit pattern) in the byte-exact wire model and with `ℚ` in the
parameterized kernel model. -/

structure ServerData (F : Type) where
  id : Int
  location : String
  uptime : Int
  load : F
deriving DecidableEq

structure ServerResult (F : Type) where
  id : Int
  location : String
  uptime : Int
  load : F
  reliability : F
  stability : F
  has_opencl_result : Bool
  has_python_result : Bool
deriving DecidableEq

abbrev Store (F : Type) := List (ServerResult F)

/-! ### Record Store construction (data_io.cpp, load_data) -/

def initResult {F : Type} [Zero F] (d : ServerData F) : ServerResult F :=
  { id := d.id, location := d.location, uptime := d.uptime, load := d.load,
    reliability := 0, stability := 0,
    has_opencl_result := false, has_python_result := false }

def storeInsert {F : Type} (s : Store F) (r : ServerResult F) : Store F :=
  if s.any (fun x => x.id == r.id) then
    s.map (fun x => if x.id == r.id then r else x)
  else
    s ++ [r]

def load_data {F : Type} [Zero F] (servers : List (ServerData F)) : Store F :=
  servers.foldl (fun s d => storeInsert s (initResult d)) []

/-! ### The two per-record mutations (opencl_processor.cpp lines 162-169,
zmq_comm.cpp receiver lines 87-93) -/

def openclUpdate {F : Type} (rel : F) (r : ServerResult F) : ServerResult F :=
  { r with reliability := rel, has_opencl_result := true }

def pythonUpdate {F : Type} (st : F) (r : ServerResult F) : ServerResult F :=
  { r with stability := st, has_python_result := true }

def openclAt {F : Type} (i : Int) (rel : F) (r : ServerResult F) : ServerResult F :=
  if r.id == i then openclUpdate rel r else r

def pythonAt {F : Type} (i : Int) (st : F) (r : ServerResult F) : ServerResult F :=
  if r.id == i then pythonUpdate st r else r

def applyOpencl {F : Type} (s : Store F) (i : Int) (rel : F) : Store F :=
  s.map (openclAt i rel)

def applyPython {F : Type} (s : Store F) (i : Int) (st : F) : Store F :=
  s.map (pythonAt i st)

/-- One store mutation performed by either writer worker. -/
inductive StoreOp (F : Type) where
  | opencl (i : Int) (rel : F)
  | python (i : Int) (st : F)

def applyOp {F : Type} (s : Store F) : StoreOp F → Store F
  | .opencl i rel => applyOpencl s i rel
  | .python i st => applyPython s i st

/-! ### Outbound sender (zmq_comm.cpp, sender_thread) -/

def encodeDataFrame (d : ServerData Nat) : List Nat :=
  int32ToBytes d.id ++ natToBytes4 d.load ++ int32ToBytes d.uptime

def STOP_FRAME : List Nat := [STOP_SIGNAL]

def sender_thread (servers : List (ServerData Nat)) : List (List Nat) :=
  servers.foldl (fun acc d => acc ++ [encodeDataFrame d]) [] ++ [STOP_FRAME]

/-! ### Inbound receiver (zmq_comm.cpp, receiver_thread) -/

def isStopFrame (msg : List Nat) : Bool :=
  msg.length == 1 && msg.head? == some STOP_SIGNAL

def decodeResultId (msg : List Nat) : Int :=
  natToInt32 (bytesToNat32 (msg.take 4))

def decodeResultStab (msg : List Nat) : Nat :=
  bytesToNat32 ((msg.drop 4).take 4)

def receiverStep (s : Store Nat) (msg : List Nat) : Store Nat :=
  if msg.length == 8 then
    applyPython s (decodeResultId msg) (decodeResultStab msg)
  else s

def receiver_thread : Store Nat → List (List Nat) → Store Nat
  | s, [] => s
  | s, msg :: rest =>
    if isStopFrame msg then s
    else receiver_thread (receiverStep s msg) rest

/-- Modelled from the spec: the inbound result frame the external worker
pool (the Python application, not under src) sends back — fixed 8 bytes,
int32 id then float32 stability (kept as its 32-bit pattern), native
byte order. -/
def resultFrame (i : Int) (stab : Nat) : List Nat :=
  int32ToBytes i ++ natToBytes4 stab

/-- Modelled from the spec: the external worker pool's decoding of the
sender's 12-byte frame (bytes 0-3 int32 id, 4-7 float32 load kept as its
32-bit pattern, 8-11 int32 uptime, native byte order). -/
def decodeDataFrame (bs : List Nat) : Int × Nat × Int :=
  (natToInt32 (bytesToNat32 (bs.take 4)),
   bytesToNat32 ((bs.drop 4).take 4),
   natToInt32 (bytesToNat32 (bs.drop 8)))

/-! ### Accelerator host-side read-back loop (opencl_processor.cpp):
the device hands back `result_count` compacted `(id, reliability)`
pairs and the host applies each under the mutex. -/

def opencl_apply {F : Type} (s : Store F) (pairs : List (Int × F)) : Store F :=
  pairs.foldl (fun st p => applyOpencl st p.1 p.2) s

/-- The cumulative effect of the accelerator's read-back loop on one
record (each map-based update, restricted to that record). -/
def oclRec {F : Type} (pairs : List (Int × F)) (r : ServerResult F) :
    ServerResult F :=
  pairs.foldl (fun r p => openclAt p.1 p.2 r) r

/-- The cumulative effect of a sequence of receiver updates on one
record. -/
def pyRec {F : Type} (ops : List (Int × F)) (r : ServerResult F) :
    ServerResult F :=
  ops.foldl (fun r p => pythonAt p.1 p.2 r) r

/-! ### Reliability kernel (kernels.cl, compute_reliability)

`fsin`/`fcos` are the device's single-precision `sin`/`cos`,
abstracted as parameters; everything else — the seed 0.5, the loop
`reliability = fabs(sin(reliability + sin(uptime/1000*i) - cos(load*i)))`
for i = 0 .. ITERATIONS-1, the scaling by 100 and the threshold — is
taken verbatim from the kernel source. -/

def ITERATIONS : Nat := 4000000

def THRESHOLD : ℚ := 50

def relStep (fsin fcos : ℚ → ℚ) (u l : ℚ) (i : Nat) (r : ℚ) : ℚ :=
  |fsin (r + fsin (u / 1000 * (i : ℚ)) - fcos (l * (i : ℚ)))|

def relLoop (fsin fcos : ℚ → ℚ) (u l : ℚ) : Nat → ℚ → ℚ
  | 0, r => r
  | n + 1, r => relStep fsin fcos u l n (relLoop fsin fcos u l n r)

def compute_reliability (fsin fcos : ℚ → ℚ) (uptime : Int) (load : ℚ) : ℚ :=
  relLoop fsin fcos (uptime : ℚ) load ITERATIONS (1 / 2) * 100

def kernelPasses (fsin fcos : ℚ → ℚ) (d : ServerData ℚ) : Bool :=
  decide (THRESHOLD ≤ compute_reliability fsin fcos d.uptime d.load)

/-- The accelerator worker: the kernel compacts the passing subset into
`(id, reliability)` pairs (the compaction order is a permutation of the
passing subset; input order is the representative chosen here), and the
host applies them to the store. -/
def opencl_thread (fsin fcos : ℚ → ℚ) (servers : List (ServerData ℚ))
    (s : Store ℚ) : Store ℚ :=
  opencl_apply s
    ((servers.filter (kernelPasses fsin fcos)).map
      (fun d => (d.id, compute_reliability fsin fcos d.uptime d.load)))

/-- The pipeline as observed by claim C1: load, accelerator pass, then
any sequence of receiver-side stability updates. -/
def pipelineC1 (fsin fcos : ℚ → ℚ) (servers : List (ServerData ℚ))
    (pyOps : List (Int × ℚ)) : Store ℚ :=
  pyOps.foldl (fun st p => applyPython st p.1 p.2)
    (opencl_thread fsin fcos servers (load_data servers))

/-! ### Report writer (data_io.cpp, write_output) -/

structure Stats where
  total : Nat
  filter1 : Nat
  filter2 : Nat
  both : Nat
deriving DecidableEq

def write_output {F : Type} (servers : List (ServerData F))
    (results : Store F) : Stats × Store F :=
  ({ total := servers.length,
     filter1 := (results.filter (fun r => r.has_opencl_result)).length,
     filter2 := (results.filter (fun r => r.has_python_result)).length,
     both := (results.filter
       (fun r => r.has_opencl_result && r.has_python_result)).length },
   results.filter (fun r => r.has_opencl_result && r.has_python_result))

/-! ### Orchestrator (main.cpp) -/

structure MainOutcome where
  exitCode : Nat
  workersStarted : Bool
  report : Option (Stats × Store Nat)

def main_run (loadRes : Option (List (ServerData Nat)))
    (pairs : List (Int × Nat)) (frames : List (List Nat)) : MainOutcome :=
  match loadRes with
  | none => { exitCode := 1, workersStarted := false, report := none }
  | some servers =>
    if servers.isEmpty then
      { exitCode := 1, workersStarted := false, report := none }
    else
      { exitCode := 0, workersStarted := true,
        report := some (write_output servers
          (receiver_thread (opencl_apply (load_data servers) pairs) frames)) }

/-! ### Mutation-count instrumentation (for the at-most-twice claim):
the same folds, additionally logging the id of every record the worker
actually mutates (a `find` hit in the C++ source). -/

def openclApplyLog : Store Nat → List (Int × Nat) → Store Nat × List Int
  | s, [] => (s, [])
  | s, p :: rest =>
    let nxt := openclApplyLog (applyOpencl s p.1 p.2) rest
    (nxt.1, (if s.any (fun r => r.id == p.1) then [p.1] else []) ++ nxt.2)

def receiverRunLog : Store Nat → List (List Nat) → Store Nat × List Int
  | s, [] => (s, [])
  | s, msg :: rest =>
    if isStopFrame msg then (s, [])
    else if msg.length == 8 then
      let i := decodeResultId msg
      let nxt := receiverRunLog (applyPython s i (decodeResultStab msg)) rest
      (nxt.1, (if s.any (fun r => r.id == i) then [i] else []) ++ nxt.2)
    else receiverRunLog s rest

/-- Ids of the data frames the receiver parses before the sentinel. -/
def dataFrameIds : List (List Nat) → List Int
  | [] => []
  | msg :: rest =>
    if isStopFrame msg then []
    else if msg.length == 8 then decodeResultId msg :: dataFrameIds rest
    else dataFrameIds rest

/-! ### Concrete demo data for witnesses and scenario computations -/

def czero : ℚ → ℚ := fun _ => 0

def c1demo : ServerData ℚ :=
  { id := 1, location := "A", uptime := 100, load := 1 / 2 }

def dA : ServerData Nat := { id := 1, location := "A", uptime := 10, load := 5 }

def dB : ServerData Nat := { id := 2, location := "B", uptime := 20, load := 6 }

def dC : ServerData Nat := { id := 3, location := "C", uptime := 30, load := 7 }

def demoServers : List (ServerData Nat) := [dA, dB, dC]

/-- Scenario A: the accelerator passes ids 1 and 3. -/
def demoOclPairs : List (Int × Nat) := [(1, 7000), (3, 8000)]

/-- Scenario A: the external pool returns stability for ids 1 and 2. -/
def demoFrames : List (List Nat) :=
  [resultFrame 1 6000, resultFrame 2 6500, STOP_FRAME]

def demoStore : Store Nat :=
  receiver_thread (opencl_apply (load_data demoServers) demoOclPairs) demoFrames

def c9Store : Store Nat := load_data [dA]

def c9Frames : List (List Nat) :=
  [resultFrame 1 6000, resultFrame 1 7000, STOP_FRAME]

/-! ## Helper lemmas -/

theorem bytesToNat32_natToBytes4 (n : Nat) (h : n < 4294967296) :
    bytesToNat32 (natToBytes4 n) = n := by
  simp only [bytesToNat32, natToBytes4]
  omega

theorem int32ToBytes_length (x : Int) : (int32ToBytes x).length = 4 := rfl

theorem natToBytes4_length (n : Nat) : (natToBytes4 n).length = 4 := rfl

theorem int32_roundtrip (x : Int) (h1 : -2147483648 ≤ x) (h2 : x < 2147483648) :
    natToInt32 (bytesToNat32 (int32ToBytes x)) = x := by
  have hlt : (x % 4294967296).toNat < 4294967296 := by omega
  rw [int32ToBytes, bytesToNat32_natToBytes4 _ hlt]
  unfold natToInt32
  split <;> omega

theorem foldl_append_eq_map {α β : Type} (f : α → β) (l : List α)
    (acc : List β) :
    l.foldl (fun a d => a ++ [f d]) acc = acc ++ l.map f := by
  induction l generalizing acc with
  | nil => simp
  | cons d rest ih => simp [ih]

theorem encodeDataFrame_length (d : ServerData Nat) :
    (encodeDataFrame d).length = 12 := rfl

theorem isStopFrame_stop : isStopFrame STOP_FRAME = true := rfl

theorem receiverStep_skip (s : Store Nat) (msg : List Nat)
    (hlen : msg.length ≠ 8) : receiverStep s msg = s := by
  have h8 : (msg.length == 8) = false := by
    simp [hlen]
  simp [receiverStep, h8]

theorem load_data_flags_aux {F : Type} [Zero F] (servers : List (ServerData F))
    (acc : Store F)
    (hacc : ∀ r ∈ acc, r.has_opencl_result = false ∧ r.has_python_result = false) :
    ∀ r ∈ servers.foldl (fun s d => storeInsert s (initResult d)) acc,
      r.has_opencl_result = false ∧ r.has_python_result = false := by
  induction servers generalizing acc with
  | nil => exact hacc
  | cons d rest ih =>
    intro r hr
    refine ih (storeInsert acc (initResult d)) ?_ r hr
    intro x hx
    unfold storeInsert at hx
    split at hx
    · obtain ⟨y, hy, hxy⟩ := List.mem_map.1 hx
      by_cases hmatch : (y.id == (initResult d).id) = true
      · rw [hmatch] at hxy
        simp only [if_true] at hxy
        subst hxy
        exact ⟨rfl, rfl⟩
      · rw [Bool.not_eq_true] at hmatch
        rw [hmatch] at hxy
        simp only [Bool.false_eq_true, if_false] at hxy
        subst hxy
        exact hacc y hy
    · rcases List.mem_append.1 hx with h | h
      · exact hacc x h
      · rw [List.mem_singleton] at h
        subst h
        exact ⟨rfl, rfl⟩

theorem forall₂_map_self {α : Type} (f : α → α) (P : α → α → Prop)
    (h : ∀ a, P a (f a)) (l : List α) : List.Forall₂ P l (l.map f) := by
  induction l with
  | nil => exact List.Forall₂.nil
  | cons a t ih => exact List.Forall₂.cons (h a) ih

theorem openclAt_mono {F : Type} (i : Int) (rel : F) (r : ServerResult F) :
    (r.has_opencl_result = true → (openclAt i rel r).has_opencl_result = true) ∧
    (r.has_python_result = true → (openclAt i rel r).has_python_result = true) := by
  unfold openclAt openclUpdate
  split <;> simp

theorem pythonAt_mono {F : Type} (i : Int) (st : F) (r : ServerResult F) :
    (r.has_opencl_result = true → (pythonAt i st r).has_opencl_result = true) ∧
    (r.has_python_result = true → (pythonAt i st r).has_python_result = true) := by
  unfold pythonAt pythonUpdate
  split <;> simp

theorem openclApplyLog_sublist (pairs : List (Int × Nat)) (s : Store Nat) :
    List.Sublist (openclApplyLog s pairs).2 (pairs.map Prod.fst) := by
  induction pairs generalizing s with
  | nil => simp [openclApplyLog]
  | cons p rest ih =>
    simp only [openclApplyLog, List.map_cons]
    split
    · exact (ih (applyOpencl s p.1 p.2)).cons₂ p.1
    · exact (ih (applyOpencl s p.1 p.2)).cons p.1

theorem receiverRunLog_sublist (frames : List (List Nat)) (s : Store Nat) :
    List.Sublist (receiverRunLog s frames).2 (dataFrameIds frames) := by
  induction frames generalizing s with
  | nil => simp [receiverRunLog, dataFrameIds]
  | cons m rest ih =>
    simp only [receiverRunLog, dataFrameIds]
    split
    · simp
    · split
      · split
        · exact (ih _).cons₂ _
        · exact (ih _).cons _
      · exact ih s

/-! ## Claim theorems -/

/-- Claim C3: applying the Accelerator Filter's update (set reliability,
set passedAccelerator = true) and the Inbound Receiver's update (set
stability, set passedExternal = true) to the same ResultRecord in either
order yields an identical final record. -/
theorem c3_updates_commute {F : Type} (rel st : F) (r : ServerResult F) :
    openclUpdate rel (pythonUpdate st r) = pythonUpdate st (openclUpdate rel r) :=
  rfl

/-- Claim C5: encoding an InputRecord as the sender's 12-byte frame
(int32 id, float32 load as its 32-bit pattern, int32 uptime, native
byte order) and decoding the frame back yields the original id, load
and uptime, and the frame is exactly 12 bytes. -/
theorem c5_frame_roundtrip (d : ServerData Nat)
    (hid1 : -2147483648 ≤ d.id) (hid2 : d.id < 2147483648)
    (hload : d.load < 4294967296)
    (hup1 : -2147483648 ≤ d.uptime) (hup2 : d.uptime < 2147483648) :
    decodeDataFrame (encodeDataFrame d) = (d.id, d.load, d.uptime) ∧
    (encodeDataFrame d).length = 12 := by
  constructor
  · have htake4 : (encodeDataFrame d).take 4 = int32ToBytes d.id := by
      rw [encodeDataFrame, List.append_assoc, List.take_left' (int32ToBytes_length d.id)]
    have hdrop4 : (encodeDataFrame d).drop 4 =
        natToBytes4 d.load ++ int32ToBytes d.uptime := by
      rw [encodeDataFrame, List.append_assoc, List.drop_left' (int32ToBytes_length d.id)]
    have hmid : ((encodeDataFrame d).drop 4).take 4 = natToBytes4 d.load := by
      rw [hdrop4, List.take_left' (natToBytes4_length d.load)]
    have hdrop8 : (encodeDataFrame d).drop 8 = int32ToBytes d.uptime := by
      rw [encodeDataFrame]
      exact List.drop_left' (by rfl)
    rw [decodeDataFrame, htake4, hmid, hdrop8,
      int32_roundtrip d.id hid1 hid2,
      int32_roundtrip d.uptime hup1 hup2,
      bytesToNat32_natToBytes4 d.load hload]
  · rfl

/-- Claim C6: the Inbound Receiver's loop consumes frames exactly up to
the first 1-byte 0xFF sentinel (frames after it are never processed and
the loop ends); a frame that is neither 8 bytes nor the sentinel is
discarded without changing the Record Store; an 8-byte frame is never
treated as the sentinel; and the sentinel alone ends the loop with the
store untouched. -/
theorem c6_receiver_framing (s : Store Nat) (msg : List Nat)
    (pre post rest : List (List Nat))
    (hpre : ∀ m ∈ pre, isStopFrame m = false) :
    receiver_thread s (pre ++ STOP_FRAME :: post) = pre.foldl receiverStep s ∧
    (msg.length ≠ 8 → isStopFrame msg = false →
      receiverStep s msg = s ∧
      receiver_thread s (msg :: rest) = receiver_thread s rest) ∧
    (msg.length = 8 → isStopFrame msg = false) ∧
    receiver_thread s (STOP_FRAME :: post) = s := by
  refine ⟨?_, ?_, ?_, ?_⟩
  · induction pre generalizing s with
    | nil => simp [receiver_thread, isStopFrame_stop]
    | cons m ms ih =>
      have hm : isStopFrame m = false := hpre m (List.mem_cons_self m ms)
      simp only [List.cons_append, receiver_thread, hm, Bool.false_eq_true,
        if_false, List.foldl_cons]
      exact ih (receiverStep s m) (fun x hx => hpre x (List.mem_cons_of_mem m hx))
  · intro hlen hstop
    refine ⟨receiverStep_skip s msg hlen, ?_⟩
    simp only [receiver_thread, hstop, Bool.false_eq_true, if_false,
      receiverStep_skip s msg hlen]
  · intro hlen
    simp [isStopFrame, hlen]
  · simp [receiver_thread, isStopFrame_stop]

/-- Claim C7: on a successful run the Orchestrator returns exit status 0
after producing the report; on a load failure or an empty record set it
returns a non-zero status before any worker starts and writes no report. -/
theorem c7_exit_status (servers : List (ServerData Nat))
    (pairs : List (Int × Nat)) (frames : List (List Nat))
    (hne : servers ≠ []) :
    ((main_run none pairs frames).exitCode ≠ 0 ∧
     (main_run none pairs frames).workersStarted = false ∧
     (main_run none pairs frames).report = none) ∧
    ((main_run (some []) pairs frames).exitCode ≠ 0 ∧
     (main_run (some []) pairs frames).workersStarted = false ∧
     (main_run (some []) pairs frames).report = none) ∧
    ((main_run (some servers) pairs frames).exitCode = 0 ∧
     (main_run (some servers) pairs frames).workersStarted = true ∧
     (main_run (some servers) pairs frames).report =
       some (write_output servers
         (receiver_thread (opencl_apply (load_data servers) pairs) frames))) := by
  refine ⟨⟨by simp [main_run], by simp [main_run], by simp [main_run]⟩,
    ⟨by simp [main_run], by simp [main_run], by simp [main_run]⟩, ?_⟩
  cases servers with
  | nil => exact absurd rfl hne
  | cons a l => exact ⟨rfl, rfl, rfl⟩

/-- Claim C8: the Outbound Sender transmits exactly one 12-byte frame
per input record, in input order, followed by exactly one 1-byte 0xFF
sentinel as the last frame it sends (no data frame equals the sentinel). -/
theorem c8_sender_frames (servers : List (ServerData Nat)) :
    sender_thread servers = servers.map encodeDataFrame ++ [STOP_FRAME] ∧
    (∀ f ∈ servers.map encodeDataFrame, f.length = 12 ∧ f ≠ STOP_FRAME) ∧
    (sender_thread servers).getLast? = some STOP_FRAME ∧
    (sender_thread servers).length = servers.length + 1 := by
  have hfold : sender_thread servers =
      servers.map encodeDataFrame ++ [STOP_FRAME] := by
    rw [sender_thread, foldl_append_eq_map, List.nil_append]
  refine ⟨hfold, ?_, ?_, ?_⟩
  · intro f hf
    obtain ⟨d, _, rfl⟩ := List.mem_map.1 hf
    refine ⟨encodeDataFrame_length d, ?_⟩
    intro hcontra
    have : (encodeDataFrame d).length = STOP_FRAME.length := by rw [hcontra]
    simp [encodeDataFrame_length, STOP_FRAME] at this
  · rw [hfold, List.getLast?_concat]
  · rw [hfold]
    simp

/-- Claim C10: the Inbound Receiver applies no local threshold: for
every 8-byte result frame whose id is present in the Record Store, the
record's stability is set to the received value and passedExternal set
to true unconditionally, for any stability payload whatsoever. -/
theorem c10_no_local_threshold (s : Store Nat) (i : Int) (stab : Nat)
    (r : ServerResult Nat)
    (hi1 : -2147483648 ≤ i) (hi2 : i < 2147483648) (hstab : stab < 4294967296)
    (hr : r ∈ s) (hid : r.id = i) :
    pythonUpdate stab r ∈ receiverStep s (resultFrame i stab) := by
  have hdid : decodeResultId (resultFrame i stab) = i := by
    rw [decodeResultId, resultFrame, List.take_left' (int32ToBytes_length i)]
    exact int32_roundtrip i hi1 hi2
  have hdst : decodeResultStab (resultFrame i stab) = stab := by
    rw [decodeResultStab, resultFrame, List.drop_left' (int32ToBytes_length i),
      List.take_of_length_le (le_of_eq (natToBytes4_length stab))]
    exact bytesToNat32_natToBytes4 stab hstab
  have hlen : (resultFrame i stab).length = 8 := rfl
  rw [receiverStep, hlen]
  simp only [Nat.reduceBEq, if_true, hdid, hdst, applyPython]
  refine List.mem_map.2 ⟨r, hr, ?_⟩
  simp [pythonAt, hid]

/-- Claim C2 counterexample: in scenario A (3 records, Accelerator
passes ids 1 and 3, external pool returns stability for ids 1 and 2)
the report's first aggregate count is 2 — every record whose
passedAccelerator flag is set, regardless of passedExternal — while the
claim requires the Accelerator-only count, which is 1 here. -/
theorem c2_counterexample :
    (write_output demoServers demoStore).1.filter1 = 2 ∧
    (demoStore.filter
      (fun r => r.has_opencl_result && !r.has_python_result)).length = 1 ∧
    (write_output demoServers demoStore).1.filter1 ≠
      (demoStore.filter
        (fun r => r.has_opencl_result && !r.has_python_result)).length := by
  refine ⟨by decide, by decide, by decide⟩

/-- Claim C2 (amended): the report contains three aggregate pass counts
computed from the final Record Store — the number of records that passed
the Accelerator (regardless of the External flag), the number that
passed the External filter (regardless of the Accelerator flag), and
the number that passed both — together with a table of the records
where both flags are true; in scenario A the report shows Filter1 = 2,
Filter2 = 2, Both = 1, and the both-table holds exactly record 1. -/
theorem c2_amended :
    (write_output demoServers demoStore).1 =
      { total := 3, filter1 := 2, filter2 := 2, both := 1 } ∧
    ((write_output demoServers demoStore).2.map (fun r => r.id)) = [1] := by
  refine ⟨by decide, by decide⟩

/-- Claim C4: the pass flags of every ResultRecord are initialized to
false at load time, and every store mutation of the program (an
Accelerator update or an Inbound Receiver update) only ever moves a
flag from false to true, never back. -/
theorem c4_flag_monotonicity {F : Type} [Zero F]
    (servers : List (ServerData F)) (s : Store F) (op : StoreOp F) :
    (∀ r ∈ load_data servers,
      r.has_opencl_result = false ∧ r.has_python_result = false) ∧
    List.Forall₂ (fun r r' : ServerResult F =>
      (r.has_opencl_result = true → r'.has_opencl_result = true) ∧
      (r.has_python_result = true → r'.has_python_result = true))
      s (applyOp s op) := by
  constructor
  · exact load_data_flags_aux servers [] (by intro r hr; cases hr)
  · cases op with
    | opencl i rel =>
      exact forall₂_map_self (openclAt i rel) _ (openclAt_mono i rel) s
    | python i st =>
      exact forall₂_map_self (pythonAt i st) _ (pythonAt_mono i st) s

/-- Claim C4 witness at a concrete load. -/
theorem c4_witness :
    (initResult dA).has_opencl_result = false ∧
    (initResult dA).has_python_result = false :=
  (c4_flag_monotonicity [dA] [] (StoreOp.opencl 1 (0 : Nat))).1
    (initResult dA) (by decide)

/-- Claim C9 counterexample: a store holding the single record id 1 and
a frame sequence resending id 1 twice before the sentinel makes the
Inbound Receiver mutate that record twice (both `find` calls hit), and
the second mutation is observable — the final stability is the second
frame's value — contradicting "at most once by the Inbound Receiver for
any sequence of received wire frames". -/
theorem c9_counterexample :
    (receiverRunLog c9Store c9Frames).2.count 1 = 2 ∧
    ¬ (receiverRunLog c9Store c9Frames).2.count 1 ≤ 1 ∧
    (receiver_thread c9Store c9Frames).map (fun r => r.stability) = [7000] := by
  refine ⟨by decide, by decide, by decide⟩

/-- Claim C9 (amended): over the program's lifetime a ResultRecord is
mutated at most once by the Accelerator Filter provided the compacted
device output carries pairwise-distinct ids (the kernel emits one pair
per input record, so this holds when input ids are unique), and at most
once by the Inbound Receiver provided the data frames received before
the sentinel carry pairwise-distinct ids — hence at most twice overall;
a duplicated wire frame mutates the record once per occurrence. -/
theorem c9_mutation_bound (s : Store Nat) (pairs : List (Int × Nat))
    (frames : List (List Nat)) (i : Int)
    (h1 : (pairs.map Prod.fst).Nodup) (h2 : (dataFrameIds frames).Nodup) :
    (openclApplyLog s pairs).2.count i ≤ 1 ∧
    (receiverRunLog s frames).2.count i ≤ 1 := by
  constructor
  · exact le_trans ((openclApplyLog_sublist pairs s).count_le i)
      (List.nodup_iff_count_le_one.1 h1 i)
  · exact le_trans ((receiverRunLog_sublist frames s).count_le i)
      (List.nodup_iff_count_le_one.1 h2 i)

/-- Claim C9 witness at a concrete store, device output and frame list. -/
theorem c9_mutation_bound_witness :
    (openclApplyLog c9Store demoOclPairs).2.count 1 ≤ 1 ∧
    (receiverRunLog c9Store [resultFrame 1 6000, STOP_FRAME]).2.count 1 ≤ 1 :=
  c9_mutation_bound c9Store demoOclPairs [resultFrame 1 6000, STOP_FRAME] 1
    (by decide) (by decide)

/-- Claim C5 witness at a concrete record. -/
theorem c5_witness :
    decodeDataFrame (encodeDataFrame dA) = (dA.id, dA.load, dA.uptime) ∧
    (encodeDataFrame dA).length = 12 :=
  c5_frame_roundtrip dA (by decide) (by decide) (by decide) (by decide)
    (by decide)

/-- Claim C6 witness: a malformed 2-byte frame before the sentinel is
skipped, the sentinel stops the loop and the trailing 8-byte frame is
never processed. -/
theorem c6_witness :
    receiver_thread c9Store
        ([[9, 9]] ++ STOP_FRAME :: [[1, 1, 1, 1, 1, 1, 1, 1]]) =
      [[9, 9]].foldl receiverStep c9Store :=
  (c6_receiver_framing c9Store [9, 9] [[9, 9]] [[1, 1, 1, 1, 1, 1, 1, 1]] []
    (by decide)).1

/-- Claim C7 witness at the concrete scenario input. -/
theorem c7_witness :
    (main_run (some demoServers) demoOclPairs demoFrames).exitCode = 0 ∧
    (main_run (some demoServers) demoOclPairs demoFrames).workersStarted = true ∧
    (main_run (some demoServers) demoOclPairs demoFrames).report =
      some (write_output demoServers
        (receiver_thread (opencl_apply (load_data demoServers) demoOclPairs)
          demoFrames)) :=
  (c7_exit_status demoServers demoOclPairs demoFrames (by decide)).2.2

/-- Claim C8 witness at the concrete scenario input. -/
theorem c8_witness :
    (sender_thread demoServers).getLast? = some STOP_FRAME :=
  (c8_sender_frames demoServers).2.2.1

/-! ## Claim C1: the accelerator pass flag tracks the reliability
threshold -/

theorem foldl_map_update {α β : Type} (g : β → α → α) (ops : List β)
    (s : List α) :
    ops.foldl (fun st p => st.map (g p)) s =
      s.map (fun r => ops.foldl (fun r p => g p r) r) := by
  induction ops generalizing s with
  | nil => simp
  | cons p rest ih =>
    simp only [List.foldl_cons]
    rw [ih (s.map (g p)), List.map_map]
    rfl

theorem opencl_apply_eq_map {F : Type} (s : Store F) (pairs : List (Int × F)) :
    opencl_apply s pairs = s.map (oclRec pairs) := by
  rw [opencl_apply]
  simp only [applyOpencl]
  exact foldl_map_update _ pairs s

theorem python_foldl_eq_map {F : Type} (s : Store F) (ops : List (Int × F)) :
    ops.foldl (fun st p => applyPython st p.1 p.2) s = s.map (pyRec ops) := by
  simp only [applyPython]
  exact foldl_map_update _ ops s

theorem openclAt_id {F : Type} (i : Int) (rel : F) (r : ServerResult F) :
    (openclAt i rel r).id = r.id := by
  unfold openclAt openclUpdate
  split <;> rfl

theorem openclAt_uptime {F : Type} (i : Int) (rel : F) (r : ServerResult F) :
    (openclAt i rel r).uptime = r.uptime := by
  unfold openclAt openclUpdate
  split <;> rfl

theorem openclAt_load {F : Type} (i : Int) (rel : F) (r : ServerResult F) :
    (openclAt i rel r).load = r.load := by
  unfold openclAt openclUpdate
  split <;> rfl

theorem pythonAt_id {F : Type} (i : Int) (st : F) (r : ServerResult F) :
    (pythonAt i st r).id = r.id := by
  unfold pythonAt pythonUpdate
  split <;> rfl

theorem pythonAt_uptime {F : Type} (i : Int) (st : F) (r : ServerResult F) :
    (pythonAt i st r).uptime = r.uptime := by
  unfold pythonAt pythonUpdate
  split <;> rfl

theorem pythonAt_load {F : Type} (i : Int) (st : F) (r : ServerResult F) :
    (pythonAt i st r).load = r.load := by
  unfold pythonAt pythonUpdate
  split <;> rfl

theorem pythonAt_opencl {F : Type} (i : Int) (st : F) (r : ServerResult F) :
    (pythonAt i st r).has_opencl_result = r.has_opencl_result := by
  unfold pythonAt pythonUpdate
  split <;> rfl

theorem oclRec_cons {F : Type} (p : Int × F) (rest : List (Int × F))
    (r : ServerResult F) :
    oclRec (p :: rest) r = oclRec rest (openclAt p.1 p.2 r) := rfl

theorem pyRec_cons {F : Type} (p : Int × F) (rest : List (Int × F))
    (r : ServerResult F) :
    pyRec (p :: rest) r = pyRec rest (pythonAt p.1 p.2 r) := rfl

theorem oclRec_uptime {F : Type} (pairs : List (Int × F)) (r : ServerResult F) :
    (oclRec pairs r).uptime = r.uptime := by
  induction pairs generalizing r with
  | nil => rfl
  | cons p rest ih => rw [oclRec_cons, ih, openclAt_uptime]

theorem oclRec_load {F : Type} (pairs : List (Int × F)) (r : ServerResult F) :
    (oclRec pairs r).load = r.load := by
  induction pairs generalizing r with
  | nil => rfl
  | cons p rest ih => rw [oclRec_cons, ih, openclAt_load]

theorem pyRec_uptime {F : Type} (ops : List (Int × F)) (r : ServerResult F) :
    (pyRec ops r).uptime = r.uptime := by
  induction ops generalizing r with
  | nil => rfl
  | cons p rest ih => rw [pyRec_cons, ih, pythonAt_uptime]

theorem pyRec_load {F : Type} (ops : List (Int × F)) (r : ServerResult F) :
    (pyRec ops r).load = r.load := by
  induction ops generalizing r with
  | nil => rfl
  | cons p rest ih => rw [pyRec_cons, ih, pythonAt_load]

theorem pyRec_opencl {F : Type} (ops : List (Int × F)) (r : ServerResult F) :
    (pyRec ops r).has_opencl_result = r.has_opencl_result := by
  induction ops generalizing r with
  | nil => rfl
  | cons p rest ih => rw [pyRec_cons, ih, pythonAt_opencl]

theorem oclRec_flag {F : Type} (pairs : List (Int × F)) (r : ServerResult F) :
    (oclRec pairs r).has_opencl_result =
      (r.has_opencl_result || pairs.any (fun p => r.id == p.1)) := by
  induction pairs generalizing r with
  | nil => simp [oclRec]
  | cons p rest ih =>
    rw [oclRec_cons, ih, List.any_cons]
    unfold openclAt openclUpdate
    by_cases h : (r.id == p.1) = true
    · simp [h]
    · rw [Bool.not_eq_true] at h
      simp [h]

theorem load_data_aux {F : Type} [Zero F] (servers : List (ServerData F))
    (acc : Store F)
    (hdisj : ∀ r ∈ acc, ∀ d ∈ servers, r.id ≠ d.id)
    (hnd : (servers.map (fun d => d.id)).Nodup) :
    servers.foldl (fun s d => storeInsert s (initResult d)) acc =
      acc ++ servers.map initResult := by
  induction servers generalizing acc with
  | nil => simp
  | cons d rest ih =>
    simp only [List.foldl_cons, List.map_cons]
    have hnotin : (acc.any (fun x => x.id == (initResult d).id)) = false := by
      rw [List.any_eq_false]
      intro x hx
      simp only [beq_iff_eq]
      exact hdisj x hx d (List.mem_cons_self d rest)
    have hins : storeInsert acc (initResult d) = acc ++ [initResult d] := by
      rw [storeInsert, hnotin]
      simp
    rw [hins, ih (acc ++ [initResult d]) ?_ ?_]
    · simp
    · intro r hr d' hd'
      rcases List.mem_append.1 hr with h | h
      · exact hdisj r h d' (List.mem_cons_of_mem d hd')
      · rw [List.mem_singleton] at h
        subst h
        have hdid : d.id ∉ rest.map (fun x => x.id) :=
          (List.nodup_cons.1 hnd).1
        intro hcontra
        have hc2 : d.id = d'.id := hcontra
        exact hdid (by rw [hc2]; exact List.mem_map_of_mem (fun x => x.id) hd')
    · exact (List.nodup_cons.1 hnd).2

theorem load_data_eq {F : Type} [Zero F] (servers : List (ServerData F))
    (hnd : (servers.map (fun d => d.id)).Nodup) :
    load_data servers = servers.map initResult := by
  rw [load_data, load_data_aux servers [] (by intro r hr; cases hr) hnd]
  rfl

/-- Claim C1: after the pipeline completes, a record's passedAccelerator
flag is true iff its reliability score — seeded at 0.5 and iterated
4,000,000 times through reliability = abs(sin(reliability +
sin(uptime/1000*i) - cos(load*i))), then scaled by 100 — reaches the
50.0 threshold; the device's single-precision sin and cos are the
parameters fsin and fcos. -/
theorem c1_accelerator_iff (fsin fcos : ℚ → ℚ)
    (servers : List (ServerData ℚ)) (pyOps : List (Int × ℚ))
    (r : ServerResult ℚ)
    (hnd : (servers.map (fun d => d.id)).Nodup)
    (hr : r ∈ pipelineC1 fsin fcos servers pyOps) :
    r.has_opencl_result = true ↔
      THRESHOLD ≤ compute_reliability fsin fcos r.uptime r.load := by
  rw [pipelineC1, opencl_thread, python_foldl_eq_map, opencl_apply_eq_map,
    load_data_eq servers hnd, List.map_map, List.map_map] at hr
  obtain ⟨d, hd, rfl⟩ := List.mem_map.1 hr
  simp only [Function.comp_apply]
  have hup : (pyRec pyOps (oclRec
      ((servers.filter (kernelPasses fsin fcos)).map
        (fun x => (x.id, compute_reliability fsin fcos x.uptime x.load)))
      (initResult d))).uptime = d.uptime := by
    rw [pyRec_uptime, oclRec_uptime]
    rfl
  have hld : (pyRec pyOps (oclRec
      ((servers.filter (kernelPasses fsin fcos)).map
        (fun x => (x.id, compute_reliability fsin fcos x.uptime x.load)))
      (initResult d))).load = d.load := by
    rw [pyRec_load, oclRec_load]
    rfl
  have hflag : (pyRec pyOps (oclRec
      ((servers.filter (kernelPasses fsin fcos)).map
        (fun x => (x.id, compute_reliability fsin fcos x.uptime x.load)))
      (initResult d))).has_opencl_result =
      ((servers.filter (kernelPasses fsin fcos)).map
        (fun x => (x.id, compute_reliability fsin fcos x.uptime x.load))).any
        (fun p => d.id == p.1) := by
    rw [pyRec_opencl, oclRec_flag]
    exact Bool.false_or _
  rw [hup, hld, hflag]
  constructor
  · intro h
    obtain ⟨p, hp, heq⟩ := List.any_eq_true.1 h
    obtain ⟨d', hd', rfl⟩ := List.mem_map.1 hp
    obtain ⟨hd'mem, hpass⟩ := List.mem_filter.1 hd'
    have hsame : d = d' :=
      List.inj_on_of_nodup_map hnd hd hd'mem (beq_iff_eq.1 heq)
    subst hsame
    exact of_decide_eq_true hpass
  · intro h
    refine List.any_eq_true.2
      ⟨(d.id, compute_reliability fsin fcos d.uptime d.load),
        List.mem_map_of_mem _ (List.mem_filter.2 ⟨hd, decide_eq_true h⟩), ?_⟩
    exact beq_self_eq_true d.id

theorem relLoop_succ (fsin fcos : ℚ → ℚ) (u l : ℚ) (n : Nat) (r : ℚ) :
    relLoop fsin fcos u l (n + 1) r =
      relStep fsin fcos u l n (relLoop fsin fcos u l n r) := rfl

theorem compute_reliability_czero (u : Int) (l : ℚ) :
    compute_reliability czero czero u l = 0 := by
  rw [compute_reliability, show ITERATIONS = 3999999 + 1 from rfl,
    relLoop_succ]
  simp [relStep, czero]

theorem kernelPasses_czero (d : ServerData ℚ) :
    kernelPasses czero czero d = false := by
  rw [kernelPasses, compute_reliability_czero]
  exact decide_eq_false (by norm_num [THRESHOLD])

/-- Claim C1 witness: with the trigonometric parameters fixed to the
constant-zero function the demo record scores 0, fails the threshold,
and its flag stays false — both sides of the iff are false. -/
theorem c1_witness :
    (initResult c1demo).has_opencl_result = true ↔
      THRESHOLD ≤ compute_reliability czero czero (initResult c1demo).uptime
        (initResult c1demo).load := by
  have hfilter : [c1demo].filter (kernelPasses czero czero) = [] := by
    simp [List.filter_cons, kernelPasses_czero]
  have hmem : initResult c1demo ∈ pipelineC1 czero czero [c1demo] [] := by
    rw [pipelineC1, List.foldl_nil, opencl_thread, hfilter]
    simp [opencl_apply, load_data, storeInsert]
  exact c1_accelerator_iff czero czero [c1demo] [] (initResult c1demo)
    (by simp) hmem

/-- Claim C10 witness: stability payload 1092616192 is the float32 bit
pattern of 10.0, well below the 50.0 threshold, and the update is
applied regardless. -/
theorem c10_witness :
    pythonUpdate 1092616192 (initResult dA) ∈
      receiverStep c9Store (resultFrame 1 1092616192) :=
  c10_no_local_threshold c9Store 1 1092616192 (initResult dA)
    (by decide) (by decide) (by decide) (by decide) rfl

end PipelineModel
